import Mathlib

/-
Shallow embedding of the scoring & interpretation engine of the
oi-orda-kz school platform:
  * src/services/analysis.py   (_parse_value_to_scales, _calc_scales_and_totals,
                                _mbti_code_from_per, _humanize,
                                build_user_results_summary)
  * src/blueprints/student.py  (_parse_value_to_scales, _calc_scales_and_totals,
                                _interpret)
  * src/blueprints/psych.py    (_parse_value_to_scales, _calc_scales_and_totals,
                                _interpretation, _cdi_risk_from_raw)
  * src/blueprints/tests/__init__.py (_compute_mbti, type-code part)

Python dicts with string keys are modelled as insertion-ordered association
lists (List (String × Int)); a raising Python computation is modelled in
Except PyErr.  Machine strings are modelled over the alphabets the code
manipulates (ASCII plus the Cyrillic block U+0410..U+044F used by the
regexes); int() / isdigit() are modelled on ASCII digit strings, which covers
every value the claims and the instruments use.
-/

namespace OiOrda

/-- The single kind of exception the embedded code can raise
(Python ValueError from int(), KeyError from a dict lookup). -/
inductive PyErr where
  | valueError : PyErr
  | keyError : PyErr
deriving DecidableEq, Repr

/-- Python str.upper() restricted to ASCII letters and the Cyrillic block:
lowercase a-z and а-я map to their uppercase forms, everything else is kept. -/
def pyUpperChar (c : Char) : Char :=
  if 'a' ≤ c ∧ c ≤ 'z' then Char.ofNat (c.toNat - 32)
  else if 'а' ≤ c ∧ c ≤ 'я' then Char.ofNat (c.toNat - 32)
  else c

def pyUpper (s : String) : String := String.mk (s.data.map pyUpperChar)

/-- Python str.lower() on the same alphabets (slugs are ASCII). -/
def pyLowerChar (c : Char) : Char :=
  if 'A' ≤ c ∧ c ≤ 'Z' then Char.ofNat (c.toNat + 32)
  else if 'А' ≤ c ∧ c ≤ 'Я' then Char.ofNat (c.toNat + 32)
  else c

def pyLower (s : String) : String := String.mk (s.data.map pyLowerChar)

/-- Numeric value of a list of ASCII digits, most significant first. -/
def natFromDigits (l : List Char) : Nat :=
  l.foldl (fun n c => 10 * n + (c.toNat - '0'.toNat)) 0

/-- Python str.strip() (no argument): drop leading and trailing whitespace.
(Own structural definition so that closed terms reduce in the kernel.) -/
def pyStrip (s : String) : String :=
  String.mk (((s.data.dropWhile Char.isWhitespace).reverse.dropWhile Char.isWhitespace).reverse)

/-- sep.join(parts) (own structural definition of String.intercalate). -/
def joinSep (sep : String) : List String → String
  | [] => ""
  | [x] => x
  | x :: xs => x ++ sep ++ joinSep sep xs

/-- Python int(s) for a stripped string: optional single sign, then one or
more ASCII digits; anything else raises ValueError (modelled as none). -/
def pyInt (s : String) : Option Int :=
  let t := pyStrip s
  match t.data with
  | '-' :: rest =>
      if rest ≠ [] ∧ rest.all Char.isDigit then some (-(natFromDigits rest : Int)) else none
  | '+' :: rest =>
      if rest ≠ [] ∧ rest.all Char.isDigit then some ((natFromDigits rest : Int)) else none
  | l =>
      if l ≠ [] ∧ l.all Char.isDigit then some ((natFromDigits l : Int)) else none

/-- Python str.isdigit() on ASCII strings: nonempty and all digits. -/
def pyIsdigit (s : String) : Bool :=
  !s.data.isEmpty && s.data.all Char.isDigit

/-- d.get(k, 0) on an insertion-ordered dict. -/
def lookupD : List (String × Int) → String → Int
  | [], _ => 0
  | kv :: rest, k => if kv.1 == k then kv.2 else lookupD rest k

/-- d[k] = d.get(k, 0) + v : update in place if the key exists (Python dicts
keep the key's original position), otherwise append at the end. -/
def upsert : List (String × Int) → String → Int → List (String × Int)
  | [], k, v => [(k, v)]
  | kv :: rest, k, v =>
      if kv.1 == k then (kv.1, kv.2 + v) :: rest else kv :: upsert rest k v

/-- The regex character class [A-Za-zА-Яа-я_] of the student/psych parsers
(U+0410..U+044F is the contiguous А-Яа-я block). -/
def isPyWordChar (c : Char) : Bool :=
  ('A' ≤ c && c ≤ 'Z') || ('a' ≤ c && c ≤ 'z') ||
  ('А' ≤ c && c ≤ 'я') || (c == '_')

/-- needle in hay on Python strings: contiguous-substring containment
(true for the empty needle). -/
def listIsInfix : List Char → List Char → Bool
  | n, [] => n.isEmpty
  | n, c :: cs => n.isPrefixOf (c :: cs) || listIsInfix n cs

def pyStrIn (needle hay : String) : Bool :=
  listIsInfix needle.data hay.data

/-- Python sorted(pairs, key=lambda kv: -kv[1]): stable descending sort on
the point count (insertion sort is stable, like Python sorted). -/
def sortDescStable (l : List (String × Int)) : List (String × Int) :=
  l.insertionSort (fun a b => a.2 ≥ b.2)

/-- Python int(a / b) for integer a, b with b ≠ 0: true division then
truncation toward zero (exact for the integer magnitudes the app stores). -/
def pyTrunc (a b : Int) : Int :=
  a.sign * b.sign * ((a.natAbs / b.natAbs : Nat) : Int)

/-- The eight MBTI letters recognised by all three parsers. -/
def mbtiLetters : List String := ["E", "I", "S", "N", "T", "F", "J", "P"]

/-- re.split(r"[;,]", s) / s.replace(",", ";").split(";"), with the
per-token .strip() every implementation applies next. -/
def splitDelimsAux (acc : List Char) : List Char → List (List Char)
  | [] => [acc.reverse]
  | c :: cs =>
      if c == ';' || c == ',' then acc.reverse :: splitDelimsAux [] cs
      else splitDelimsAux (c :: acc) cs

def tokenizePy (s : String) : List String :=
  ((splitDelimsAux [] s.data).map (fun l => pyStrip (String.mk l)))

/-- token.split("=", 1): the part before the first '=' and the part after it. -/
def splitFirstEq (t : String) : String × String :=
  (String.mk (t.data.takeWhile (fun c => c ≠ '=')),
   String.mk ((t.data.dropWhile (fun c => c ≠ '=')).drop 1))

/-- services/analysis.py _parse_value_to_scales.  The bare-number branch
tests s.lstrip("-").isdigit() and then calls int(s) unguarded, so a string
such as "--5" raises ValueError; the composite branch requires '=' in a
token and wraps its int() in try/except. -/
def parseValueAnalysis (val : Option String) : Except PyErr (List (String × Int)) :=
  match val with
  | none => .ok []
  | some v =>
    let s := pyStrip v
    if s.data.isEmpty then .ok []
    else if mbtiLetters.contains (pyUpper s) then .ok [(pyUpper s, 1)]
    else if pyIsdigit (String.mk (s.data.dropWhile (fun c => c == '-'))) then
      match pyInt s with
      | some n => .ok [("TOTAL", n)]
      | none => .error .valueError
    else
      .ok ((tokenizePy s).foldl (fun acc token =>
        if token.data.isEmpty then acc
        else if token.data.contains '=' then
          let cn := splitFirstEq token
          match pyInt (pyStrip cn.2) with
          | some pts => upsert acc (pyUpper (pyStrip cn.1)) pts
          | none => acc
        else acc) [])

/-- re.fullmatch(r"-?\d+", s). -/
def isSignedIntRe (s : String) : Bool :=
  match s.data with
  | '-' :: rest => !rest.isEmpty && rest.all Char.isDigit
  | l => !l.isEmpty && l.all Char.isDigit

/-- Value of a string accepted by isSignedIntRe (what int(s) returns there). -/
def signedIntVal (s : String) : Int :=
  match s.data with
  | '-' :: rest => -(natFromDigits rest : Int)
  | l => (natFromDigits l : Int)

/-- re.match(r"([A-Za-zА-Яа-я_]+)\s*=?\s*([+-]?\d+)", token): anchored prefix
match; the character classes are pairwise disjoint so greedy matching is
deterministic; trailing characters after the number are ignored. -/
def matchToken (t : String) : Option (String × Int) :=
  let l := t.data
  let letters := l.takeWhile isPyWordChar
  if letters.isEmpty then none
  else
    let r1 := (l.drop letters.length).dropWhile Char.isWhitespace
    let r2 := match r1 with
      | '=' :: r => r.dropWhile Char.isWhitespace
      | r => r
    let sr : Int × List Char := match r2 with
      | '-' :: r => (-1, r)
      | '+' :: r => (1, r)
      | r => (1, r)
    let digits := sr.2.takeWhile Char.isDigit
    if digits.isEmpty then none
    else some (pyUpper (String.mk letters), sr.1 * (natFromDigits digits : Int))

/-- One step of the composite loop of the student/psych parsers. -/
def tokenStep (acc : List (String × Int)) (token : String) : List (String × Int) :=
  if token.data.isEmpty then acc
  else
    match matchToken token with
    | some cn => upsert acc cn.1 cn.2
    | none => acc

/-- The integer a single token contributes to a given code under the
student/psych composite rule (0 if the token does not match or names a
different code). -/
def tokenContrib (code : String) (t : String) : Int :=
  match matchToken t with
  | some cn => if cn.1 = code then cn.2 else 0
  | none => 0

/-- blueprints/student.py and blueprints/psych.py _parse_value_to_scales
(they are textually identical): total, regex-based. -/
def parseValueRe (val : Option String) : List (String × Int) :=
  match val with
  | none => []
  | some v =>
    let s := pyStrip v
    if s.data.isEmpty then []
    else if mbtiLetters.contains (pyUpper s) then [(pyUpper s, 1)]
    else if isSignedIntRe s then [("TOTAL", signedIntVal s)]
    else (tokenizePy s).foldl tokenStep []

/-! ### Aggregation (the three _calc_scales_and_totals variants) -/

/-- Snapshot of a TestOption row: surrogate id and the value column. -/
structure TOption where
  id : Nat
  value : Option String
deriving DecidableEq, Repr

/-- Snapshot of a TestQuestion row with its options in ascending order. -/
structure TQuestion where
  id : Nat
  options : List TOption
deriving DecidableEq, Repr

/-- answers_by_qid: dict question_id → chosen option_id (assoc list). -/
def ansFor : List (Nat × Nat) → Nat → Option Nat
  | [], _ => none
  | p :: rest, qid => if p.1 == qid then some p.2 else ansFor rest qid

/-- Per-question max of the parsed TOTAL over the options, floored at 0
by the max_q = 0 initialisation (regex-parser variants). -/
def maxQTotalRe (opts : List TOption) : Int :=
  opts.foldl (fun m o => max m (lookupD (parseValueRe o.value) "TOTAL")) 0

/-- The answer-independent max_score: sum over questions of maxQTotalRe. -/
def maxScoreOf (qs : List TQuestion) : Int :=
  qs.foldl (fun m q => m + maxQTotalRe q.options) 0

/-- The answer-dependent tail of one student/psych aggregation step: if the
recorded answer (if any) selects one of this question s options, accumulate
its parsed scales and its TOTAL into per/raw; max_score is already final. -/
def calcReChoice (st : List (String × Int) × Int × Int) (maxS : Int)
    (q : TQuestion) : Option Nat → List (String × Int) × Int × Int
  | none => (st.1, st.2.1, maxS)
  | some oid =>
    match q.options.find? (fun o => o.id == oid) with
    | none => (st.1, st.2.1, maxS)
    | some o =>
      let parsed := parseValueRe o.value
      (parsed.foldl (fun p kv => upsert p kv.1 kv.2) st.1,
       st.2.1 + lookupD parsed "TOTAL",
       maxS)

/-- The per-question body of the student/psych _calc_scales_and_totals
loop: add the question maximum to max_score, then handle the answer. -/
def calcReStep (ans : List (Nat × Nat)) (st : List (String × Int) × Int × Int)
    (q : TQuestion) : List (String × Int) × Int × Int :=
  calcReChoice st (st.2.2 + maxQTotalRe q.options) q (ansFor ans q.id)

/-- blueprints/student.py and blueprints/psych.py _calc_scales_and_totals
(identical algorithm; psych additionally returns the question list, which
carries no scoring information). -/
def calcRe (qs : List TQuestion) (ans : List (Nat × Nat)) :
    List (String × Int) × Int × Int :=
  qs.foldl (calcReStep ans) ([], 0, 0)

/-- Per-question max loop of services/analysis.py (its parser can raise). -/
def maxQTotalA (opts : List TOption) : Except PyErr Int :=
  opts.foldlM (fun m o => do
    let parsed ← parseValueAnalysis o.value
    pure (max m (lookupD parsed "TOTAL"))) 0

/-- One question of the answer-independent part of the services/analysis.py
aggregation. -/
def maxStepA (m : Int) (q : TQuestion) : Except PyErr Int := do
  let mq ← maxQTotalA q.options
  pure (m + mq)

/-- Answer-independent part of the services/analysis.py aggregation. -/
def maxScoreOfA (qs : List TQuestion) : Except PyErr Int :=
  qs.foldlM maxStepA 0

/-- The answer-dependent tail of one services/analysis.py aggregation step
(the chosen option s value is parsed again, and that parse can raise). -/
def calcAChoice (st : List (String × Int) × Int × Int) (maxS : Int)
    (q : TQuestion) : Option Nat → Except PyErr (List (String × Int) × Int × Int)
  | none => pure (st.1, st.2.1, maxS)
  | some oid =>
    match q.options.find? (fun o => o.id == oid) with
    | none => pure (st.1, st.2.1, maxS)
    | some o => do
      let parsed ← parseValueAnalysis o.value
      pure (parsed.foldl (fun p kv => upsert p kv.1 kv.2) st.1,
            st.2.1 + lookupD parsed "TOTAL",
            maxS)

def calcAStep (ans : List (Nat × Nat)) (st : List (String × Int) × Int × Int)
    (q : TQuestion) : Except PyErr (List (String × Int) × Int × Int) := do
  let mq ← maxQTotalA q.options
  calcAChoice st (st.2.2 + mq) q (ansFor ans q.id)

/-- services/analysis.py _calc_scales_and_totals: same algorithm as the
student/psych variant, but its parser raises ValueError on values such as
"--5", and the exception propagates out of the aggregation. -/
def calcAnalysis (qs : List TQuestion) (ans : List (Nat × Nat)) :
    Except PyErr (List (String × Int) × Int × Int) :=
  qs.foldlM (calcAStep ans) ([], 0, 0)

/-! ### MBTI code -/

def mbtiPairs : List (String × String) := [("E", "I"), ("S", "N"), ("T", "F"), ("J", "P")]

/-- Dichotomy labels of services/analysis.py _mbti_code_from_per. -/
def mbtiLabelRuA : String → String
  | "E" => "Экстраверсия"
  | "I" => "Интроверсия"
  | "S" => "Сенсорика"
  | "N" => "Интуиция"
  | "T" => "Мышление"
  | "F" => "Чувство"
  | "J" => "Суждение"
  | "P" => "Восприятие"
  | _ => ""

/-- services/analysis.py _mbti_code_from_per: the 4-letter code and the
per-pair commentary lines. -/
def mbtiCodeCommentaryA (per : List (String × Int)) : String × List String :=
  mbtiPairs.foldl (fun acc ab =>
    let a := ab.1
    let b := ab.2
    let va := lookupD per a
    let vb := lookupD per b
    let pick := if va ≥ vb then a else b
    let trend := if va = vb then "≈" else ">"
    let la := mbtiLabelRuA a
    let lb := mbtiLabelRuA b
    (acc.1 ++ pick, acc.2 ++ [s!"{la}/{lb} — {a}:{va} {trend} {b}:{vb} → {pick}"]))
    ("", [])

/-- blueprints/tests/__init__.py _compute_mbti, step 4:
pick = lambda a, b: a if counts.get(a, 0) >= counts.get(b, 0) else b. -/
def mbtiPick (per : List (String × Int)) (a b : String) : String :=
  if lookupD per a ≥ lookupD per b then a else b

/-- blueprints/tests/__init__.py _compute_mbti, step 4:
type_code = pick("E","I") + pick("S","N") + pick("T","F") + pick("J","P"). -/
def mbtiTypeCode (per : List (String × Int)) : String :=
  mbtiPick per "E" "I" ++ mbtiPick per "S" "N" ++ mbtiPick per "T" "F" ++ mbtiPick per "J" "P"

/-! ### Holland / RIASEC ranking -/

/-- student.py / analysis.py filter: k in "RIASEC" — Python substring test. -/
def hollandOrderedSub (per : List (String × Int)) : List (String × Int) :=
  sortDescStable (per.filter (fun kv => pyStrIn kv.1 "RIASEC"))

def riasecSet : List String := ["R", "I", "A", "S", "E", "C"]

/-- psych.py filter: k in set("RIASEC") — membership in the six letters. -/
def hollandOrderedSet (per : List (String × Int)) : List (String × Int) :=
  sortDescStable (per.filter (fun kv => riasecSet.contains kv.1))

/-- "".join(sep-joined parts) or alt : Python falsy-empty-string fallback. -/
def joinOr (sep : String) (parts : List String) (alt : String) : String :=
  let j := joinSep sep parts
  if j.data.isEmpty then alt else j

/-- top3 = "".join([k for k, _ in ordered[:3]]) or "—". -/
def hollandTop3 (ordered : List (String × Int)) : String :=
  joinOr "" ((ordered.take 3).map (fun kv => kv.1)) "—"

/-! ### Bennett percentage banding -/

/-- pct = int(100 * raw / max_score); truncation toward zero (Python int()
applied to true division; exact at the app's integer magnitudes). -/
def bennettPct (raw maxScore : Int) : Int :=
  pyTrunc (100 * raw) maxScore

def bennettBandRu (pct : Int) : String :=
  if pct ≥ 75 then "высокий" else if pct ≥ 40 then "средний" else "низкий"

/-! ### services/analysis.py _humanize -/

def klimovNames : List (String × String) :=
  [("H", "Человек-человек"), ("T", "Человек-техника"), ("N", "Человек-природа"),
   ("S", "Человек-знаковая система"), ("A", "Человек-художественный образ")]

def klimovLookup (k : String) : Option String :=
  (klimovNames.find? (fun p => p.1 == k)).map (fun p => p.2)

def kos2LvlRu (x : Int) : String :=
  if x ≥ 8 then "высокий" else if x ≥ 4 then "средний" else "низкий"

def humanize (slug : String) (per : List (String × Int)) (raw maxScore : Int) : String :=
  let s := pyLower slug
  if s = "mbti" then
    let cl := mbtiCodeCommentaryA per
    let code := cl.1
    let pairs := joinSep "; " cl.2
    s!"MBTI: ваш тип — {code}. Это описание предпочтений, не диагноз. Баланс по дихотомиям: {pairs}."
  else if s = "klimov" then
    let ordered := sortDescStable (per.filter (fun kv => (klimovLookup kv.1).isSome))
    let lead := match ordered with
      | [] => "—"
      | kv :: _ => (klimovLookup kv.1).getD "—"
    let top := joinOr " > " (ordered.map (fun kv =>
      let n := (klimovLookup kv.1).getD kv.1
      let v := kv.2
      s!"{n}:{v}")) "н/д"
    s!"Климов: ведущий тип — {lead}. Рейтинг: {top}."
  else if s = "holland" then
    let ordered := hollandOrderedSub per
    let top3 := hollandTop3 ordered
    let rank := joinOr " > " (ordered.map (fun kv =>
      let k := kv.1
      let v := kv.2
      s!"{k}:{v}")) "н/д"
    s!"RIASEC (Холланд): топ-3 профиль — {top3}. Рейтинг: " ++ rank
  else if s = "kos2" then
    let comm := lookupD per "COMM"
    let org := lookupD per "ORG"
    let lc := kos2LvlRu comm
    let lo := kos2LvlRu org
    s!"КОС-2: коммуникативные {comm} ({lc}), организаторские {org} ({lo})."
  else if s = "bennett" then
    let pct := if maxScore ≠ 0 then bennettPct raw maxScore else 0
    let band := bennettBandRu pct
    s!"Беннет: пространственное мышление ≈{pct}% — {band}."
  else if s = "interests" ∨ s = "thinking" ∨ s = "child_type" then
    let ordered := if per.isEmpty then [] else sortDescStable per
    let top := joinOr ", " ((ordered.take 3).map (fun kv =>
      let k := kv.1
      let v := kv.2
      s!"{k}:{v}")) "—"
    let title := if s = "interests" then "Карта интересов"
      else if s = "thinking" then "Тип мышления" else "Тип личности ребёнка"
    s!"{title}: ведущие шкалы — {top}."
  else if s = "cdi" then
    "CDI (детская шкала): результаты доступны только школьному психологу."
  else
    "Итоги сохранены."

/-! ### blueprints/student.py _interpret -/

/-- Interpretation result: {"title": ..., "bullets": [...], "code": ...?}. -/
structure Interp where
  title : String
  bullets : List String
  code : Option String := none
deriving DecidableEq, Repr

/-- Dichotomy labels of blueprints/student.py _interpret (S is "Ощущение"
there, unlike the analysis.py digest). -/
def mbtiLabelRuS : String → String
  | "E" => "Экстраверсия"
  | "I" => "Интроверсия"
  | "S" => "Ощущение"
  | "N" => "Интуиция"
  | "T" => "Мышление"
  | "F" => "Чувство"
  | "J" => "Суждение"
  | "P" => "Восприятие"
  | _ => ""

/-- The MBTI pair fold of student.py _interpret (code and explain lines). -/
def mbtiCodeExplainS (per : List (String × Int)) : String × List String :=
  mbtiPairs.foldl (fun acc ab =>
    let a := ab.1
    let b := ab.2
    let va := lookupD per a
    let vb := lookupD per b
    let pick := if va ≥ vb then a else b
    let trend := if va = vb then "≈" else ">"
    let la := mbtiLabelRuS a
    let lb := mbtiLabelRuS b
    (acc.1 ++ pick, acc.2 ++ [s!"{la}/{lb} — {a}:{va} {trend} {b}:{vb} → <b>{pick}</b>"]))
    ("", [])

def klimovShort : List (String × String) :=
  [("H", "Ч-Ч"), ("T", "Ч-Т"), ("N", "Ч-Пр"), ("S", "Ч-Зн"), ("A", "Ч-ХО")]

def klimovShortLookup (k : String) : Option String :=
  (klimovShort.find? (fun p => p.1 == k)).map (fun p => p.2)

/-- blueprints/student.py _interpret. -/
def interpretStudent (slug : String) (per : List (String × Int)) (raw maxScore : Int) : Interp :=
  let s := pyLower slug
  if s = "mbti" then
    let ce := mbtiCodeExplainS per
    let code := ce.1
    { title := s!"Тип по MBTI: {code}"
      bullets := [s!"Ваш тип: <b>{code}</b> (укороченная версия).",
                  "Это описание предпочтений, а не диагноз.",
                  "Используйте тип как ориентир для стиля учёбы, коммуникации и распределения ролей в проекте."]
                 ++ ce.2
      code := some code }
  else if s = "holland" then
    let ordered := hollandOrderedSub per
    let top3 := hollandTop3 ordered
    let rank := joinOr " > " (ordered.map (fun kv =>
      let k := kv.1
      let v := kv.2
      s!"{k}:{v}")) "н/д"
    { title := s!"RIASEC-профиль: {top3}"
      bullets := [s!"Рейтинг кодов RIASEC: <b>{rank}</b>.",
                  s!"Ваш профиль интересов (топ-3): <b>{top3}</b>.",
                  "Ориентируйтесь на направления и факультеты, где ведущие коды раскрываются лучше всего."]
      code := some top3 }
  else if s = "klimov" then
    -- the short name is substituted before sorting in this variant
    let ordered := sortDescStable ((per.filter (fun kv => (klimovShortLookup kv.1).isSome)).map
      (fun kv => ((klimovShortLookup kv.1).getD kv.1, kv.2)))
    let lead := match ordered with
      | [] => "—"
      | kv :: _ => kv.1
    let rank := joinOr " > " (ordered.map (fun kv =>
      let k := kv.1
      let v := kv.2
      s!"{k}:{v}")) "н/д"
    { title := s!"Климов: ведущий тип — {lead}"
      bullets := [s!"Рейтинг типов: <b>{rank}</b>.",
                  s!"Ведущий тип: <b>{lead}</b>. Подберите профиль и учебные активности под него."]
      code := some lead }
  else if s = "kos2" then
    let comm := lookupD per "COMM"
    let org := lookupD per "ORG"
    let lc := kos2LvlRu comm
    let lo := kos2LvlRu org
    { title := "КОС-2: профиль навыков"
      bullets := [s!"Коммуникативные склонности: <b>{comm}</b> — {lc}.",
                  s!"Организаторские склонности: <b>{org}</b> — {lo}.",
                  "Развивайте soft-skills через дебат-клубы, проектную работу и тьюторство младших."] }
  else if s = "interests" ∨ s = "thinking" ∨ s = "child_type" ∨ s = "bennett" then
    let ordered := if per.isEmpty then [] else sortDescStable per
    let top := joinOr ", " ((ordered.take 3).map (fun kv =>
      let k := kv.1
      let v := kv.2
      s!"{k}:{v}")) "—"
    let base := [s!"Ведущие шкалы: <b>{top}</b>."]
    let bullets := if s = "bennett" ∧ maxScore ≠ 0 then
        let pct := bennettPct raw maxScore
        let cat := bennettBandRu pct
        base ++ [s!"Пространственное мышление: ≈{pct}% — <b>{cat}</b> уровень."]
      else base
    { title := "Итоги по шкалам", bullets := bullets }
  else if s = "cdi" then
    let level := if raw ≥ 19 then "высокая" else if raw ≥ 13 then "умеренная" else "низкая"
    { title := "CDI: сводка"
      bullets := [s!"Суммарный показатель: <b>{raw}</b> (уровень: {level}).",
                  "Подробная интерпретация и дальнейшие шаги доступны школьному психологу."] }
  else
    { title := "Итоги теста"
      bullets := ["Результаты сохранены. Подробная интерпретация будет доступна после настройки шкал."] }

/-! ### blueprints/psych.py _interpretation and _cdi_risk_from_raw -/

/-- The per-language header strings t of psych.py _interpretation. -/
structure LangT where
  yourType : String
  tips : String
  saved : String
deriving DecidableEq, Repr

/-- t = {"ru": ..., "en": ..., "kk": ...}[lang] — a dict lookup that raises
KeyError for any other language code. -/
def psychT (lang : String) : Except PyErr LangT :=
  if lang = "ru" then .ok ⟨"Ваш тип", "Советы", "Результаты сохранены."⟩
  else if lang = "en" then .ok ⟨"Your type", "Tips", "Results saved."⟩
  else if lang = "kk" then .ok ⟨"Сіздің типіңіз", "Кеңестер", "Нәтиже сақталды."⟩
  else .error .keyError

/-- Select among the three localisations (callers only reach this with a
validated language, ru being the first dict key tried). -/
def pick3 (lang ru en kk : String) : String :=
  if lang = "en" then en else if lang = "kk" then kk else ru

def psychMbtiLabel (lang letter : String) : String :=
  pick3 lang
    (match letter with
      | "E" => "Экстраверсия" | "I" => "Интроверсия" | "S" => "Ощущение" | "N" => "Интуиция"
      | "T" => "Мышление" | "F" => "Чувство" | "J" => "Суждение" | "P" => "Восприятие" | _ => "")
    (match letter with
      | "E" => "Extraversion" | "I" => "Introversion" | "S" => "Sensing" | "N" => "Intuition"
      | "T" => "Thinking" | "F" => "Feeling" | "J" => "Judging" | "P" => "Perceiving" | _ => "")
    (match letter with
      | "E" => "Экстраверсия" | "I" => "Интроверсия" | "S" => "Сезіну" | "N" => "Интуиция"
      | "T" => "Ойлау" | "F" => "Сезім" | "J" => "Бағалау" | "P" => "Қабылдау" | _ => "")

def kos2LvlLang (lang : String) (x : Int) : String :=
  if x ≥ 8 then pick3 lang "высокий" "high" "жоғары"
  else if x ≥ 4 then pick3 lang "средний" "medium" "орта"
  else pick3 lang "низкий" "low" "төмен"

/-- blueprints/psych.py _interpretation: the language table is consulted
first, so every slug raises KeyError on an unsupported language. -/
def interpPsych (slug lang : String) (per : List (String × Int)) (raw maxScore : Int) :
    Except PyErr Interp := do
  let s := pyLower slug
  let t ← psychT lang
  if s = "mbti" then
    let ce := mbtiPairs.foldl (fun acc ab =>
      let a := ab.1
      let b := ab.2
      let va := lookupD per a
      let vb := lookupD per b
      let pick := if va ≥ vb then a else b
      let trend := if va = vb then "≈" else ">"
      let la := psychMbtiLabel lang a
      let lb := psychMbtiLabel lang b
      (acc.1 ++ pick, acc.2 ++ [s!"{la}/{lb} — {a}:{va} {trend} {b}:{vb} → <b>{pick}</b>"]))
      ("", [])
    let code := ce.1
    let ty := t.yourType
    let disclaimer := pick3 lang "Это описание предпочтений, а не диагноз."
      "This is a description of preferences, not a diagnosis."
      "Бұл бағалау емес, қалаулардың сипаттамасы."
    pure { title := s!"MBTI • {code}"
           bullets := [s!"{ty}: <b>{code}</b>.", disclaimer] ++ ce.2
           code := some code }
  else if s = "holland" then
    let ordered := hollandOrderedSet per
    let top3 := hollandTop3 ordered
    let head := pick3 lang "Топ-3 коды интересов: " "Top-3 codes: " "Үздік 3 код: "
    let advice := pick3 lang "Подбирайте профили и практики под ведущие коды."
      "Align studies with the leading codes."
      "Жетекші кодтарға сай пәндер таңдау."
    pure { title := s!"RIASEC • {top3}"
           bullets := [head ++ s!"<b>{top3}</b>", advice]
           code := some top3 }
  else if s = "kos2" then
    let comm := lookupD per "COMM"
    let org := lookupD per "ORG"
    let lc := kos2LvlLang lang comm
    let lo := kos2LvlLang lang org
    pure { title := "КОС-2"
           bullets := [pick3 lang s!"Коммуникативные: <b>{comm}</b> — {lc}."
                         s!"Communication: <b>{comm}</b> — {lc}."
                         s!"Коммуникативтік: <b>{comm}</b> — {lc}.",
                       pick3 lang s!"Организаторские: <b>{org}</b> — {lo}."
                         s!"Leadership/organization: <b>{org}</b> — {lo}."
                         s!"Ұйымдастыру: <b>{org}</b> — {lo}."] }
  else if s = "cdi" ∨ s = "interests" ∨ s = "thinking" ∨ s = "child_type" ∨ s = "bennett" then
    let bullets : List String :=
      if s = "bennett" ∧ maxScore ≠ 0 then
        let pct := bennettPct raw maxScore
        let cat := pick3 lang (bennettBandRu pct)
          (if pct ≥ 75 then "high" else if pct ≥ 40 then "medium" else "low")
          (if pct ≥ 75 then "жоғары" else if pct ≥ 40 then "орта" else "төмен")
        [pick3 lang s!"Пространственное мышление: ≈{pct}% — <b>{cat}</b>."
           s!"Spatial ability: ≈{pct}% — <b>{cat}</b>."
           s!"Кеңістіктік ойлау: ≈{pct}% — <b>{cat}</b>."]
      else []
    let bullets := if bullets.isEmpty then [t.saved] else bullets
    pure { title := "Итоги", bullets := bullets }
  else
    pure { title := "Итоги", bullets := [t.saved] }

/-- Risk-band record of psych.py _cdi_risk_from_raw. -/
structure CdiRisk where
  level : String
  label : String
  color : String
  reason : String
deriving DecidableEq, Repr

/-- blueprints/psych.py _cdi_risk_from_raw: None → None; unsupported
language normalised to "ru"; thresholds 19 / 13. -/
def cdiBand (raw : Option Int) (lang : String) : Option CdiRisk :=
  match raw with
  | none => none
  | some r =>
    let lg := if lang = "ru" ∨ lang = "en" ∨ lang = "kk" then lang else "ru"
    if r ≥ 19 then
      some { level := "high"
             label := pick3 lg "высокий риск" "high risk" "жоғары тәуекел"
             color := "danger"
             reason := pick3 lg s!"суммарный балл {r} (≥19)" s!"total score {r} (≥19)"
               s!"жиынтық ұпай {r} (≥19)" }
    else if r ≥ 13 then
      some { level := "moderate"
             label := pick3 lg "умеренный риск" "moderate risk" "орташа тәуекел"
             color := "warning"
             reason := pick3 lg s!"суммарный балл {r} (13–18)" s!"total score {r} (13–18)"
               s!"жиынтық ұпай {r} (13–18)" }
    else
      some { level := "low"
             label := pick3 lg "низкий риск" "low risk" "төмен тәуекел"
             color := "secondary"
             reason := pick3 lg s!"суммарный балл {r}" s!"total score {r}" s!"жиынтық ұпай {r}" }

/-! ### services/analysis.py build_user_results_summary, per-instrument line -/

/-- Snapshot of a Test row together with its question/option structure. -/
structure TestSnap where
  title : String
  slug : String
  confidentialStudent : Bool
  questions : List TQuestion
deriving DecidableEq, Repr

/-- The line appended for one finished attempt in
build_user_results_summary (services/analysis.py lines 160–166):
a fixed no-detail line for confidential instruments, otherwise the
aggregation followed by _humanize. -/
def summaryLine (t : TestSnap) (ans : List (Nat × Nat)) : Except PyErr String :=
  if t.confidentialStudent then
    .ok s!"• {t.title}: конфиденциальная сводка без подробностей."
  else do
    let r ← calcAnalysis t.questions ans
    pure (s!"• {t.title}: " ++ humanize t.slug r.1 r.2.1 r.2.2)

/-! ## Theorems -/

/-- For nonnegative numerators and positive denominators, Python int()
truncation agrees with floor division (Int division by a positive
divisor is floor division). -/
theorem pyTrunc_nonneg (a b : Int) (ha : 0 ≤ a) (hb : 0 < b) : pyTrunc a b = a / b := by
  obtain ⟨m, rfl⟩ := Int.eq_ofNat_of_zero_le ha
  obtain ⟨n, rfl⟩ := Int.eq_ofNat_of_zero_le hb.le
  rcases Nat.eq_zero_or_pos m with hm | hm
  · subst hm
    simp [pyTrunc]
  · have hn : 0 < n := by omega
    obtain ⟨k, rfl⟩ := Nat.exists_eq_succ_of_ne_zero (Nat.pos_iff_ne_zero.mp hm)
    obtain ⟨j, rfl⟩ := Nat.exists_eq_succ_of_ne_zero (Nat.pos_iff_ne_zero.mp hn)
    show (1 : Int) * 1 * _ = _
    rw [one_mul, one_mul]
    simp only [Int.natAbs_ofNat]
    exact Int.natCast_div _ _

/-- C1: the spec requires the option-value parser to be total (never raise,
with parse(None) == {} and parse("") == {}), and the student/psych parser is;
but the services/analysis.py variant checks s.lstrip("-").isdigit() and then
calls int(s) unguarded, so the hand-authorable value "--5" raises ValueError
there, contradicting the spec's explicit totality requirement. -/
theorem claim1_parser_totality :
    parseValueAnalysis (some "--5") = .error .valueError ∧
    parseValueAnalysis none = .ok [] ∧
    parseValueAnalysis (some "") = .ok [] ∧
    parseValueAnalysis (some "   ") = .ok [] ∧
    parseValueRe none = [] ∧
    parseValueRe (some "") = [] ∧
    parseValueRe (some "   ") = [] ∧
    parseValueRe (some "--5") = [] :=
  ⟨rfl, rfl, rfl, rfl, rfl, rfl, rfl, rfl⟩

/-- C2, counterexample: the claim as stated fails twice on the code.
With max_score = 0 the analysis.py digest does not omit the percentage —
it prints a "≈0% — низкий" line; and pct is int() truncation toward zero,
not floor: at raw = -15, max_score = 40 the code yields -37 while
floor(100·(-15)/40) = -38. -/
theorem claim2_counterexample :
    humanize "bennett" [] 0 0 = "Беннет: пространственное мышление ≈0% — низкий." ∧
    humanize "bennett" [] (-15) 40 = "Беннет: пространственное мышление ≈-37% — низкий." ∧
    (100 * (-15) : Int) / 40 = -38 ∧
    bennettPct (-15) 40 = -37 :=
  ⟨rfl, rfl, rfl, rfl⟩

/-- C2 (amended): for the bennett instrument, when max_score > 0 the code
computes pct as int() truncation of 100·raw/max_score — equal to floor
whenever raw ≥ 0, hence 30/40 → 75/high and 15/40 → 37/low — and bands
high iff pct ≥ 75, medium iff 40 ≤ pct < 75, else low; when max_score = 0
no exception is raised: the student and psych interpreters omit the
percentage bullet, while the analysis digest prints a fixed
"≈0% — низкий" line instead of omitting it. -/
theorem claim2_bennett_banding :
    (∀ raw maxS : Int, 0 ≤ raw → 0 < maxS → bennettPct raw maxS = (100 * raw) / maxS) ∧
    (∀ p : Int,
      (bennettBandRu p = "высокий" ↔ 75 ≤ p) ∧
      (bennettBandRu p = "средний" ↔ 40 ≤ p ∧ p < 75) ∧
      (bennettBandRu p = "низкий" ↔ p < 40)) ∧
    bennettPct 30 40 = 75 ∧ bennettBandRu 75 = "высокий" ∧
    bennettPct 15 40 = 37 ∧ bennettBandRu 37 = "низкий" ∧
    (∀ per raw, (interpretStudent "bennett" per raw 0).bullets.length = 1) ∧
    (∀ per raw, interpPsych "bennett" "ru" per raw 0 =
      .ok { title := "Итоги", bullets := ["Результаты сохранены."] }) ∧
    (∀ per raw, humanize "bennett" per raw 0 =
      "Беннет: пространственное мышление ≈0% — низкий.") := by
  refine ⟨fun raw maxS ha hb => pyTrunc_nonneg (100 * raw) maxS (by positivity) hb,
    fun p => ⟨?_, ?_, ?_⟩, rfl, rfl, rfl, rfl,
    fun per raw => rfl, fun per raw => rfl, fun per raw => rfl⟩ <;>
    unfold bennettBandRu <;> split_ifs <;> simp <;> omega

/-- C2 witness: the banding theorem applied at raw = 30, max_score = 40. -/
theorem claim2_bennett_banding_witness :
    bennettPct 30 40 = (100 * 30 : Int) / 40 :=
  claim2_bennett_banding.1 30 40 (by decide) (by decide)

/-- C5, counterexample: an unsupported language code is not silently
normalized by the psych interpretation function — the dict lookup
{"ru" ..., "en" ..., "kk" ...}[lang] raises KeyError for lang = "de". -/
theorem claim5_counterexample :
    interpPsych "mbti" "de" [] 0 0 = .error .keyError :=
  rfl

/-- C5 (amended): the CDI risk-banding function silently normalizes every
language outside ru/en/kk to ru, but the psych interpretation function does
not: for every such language and every slug it raises KeyError. -/
theorem claim5_language_fallback (lang : String)
    (h1 : lang ≠ "ru") (h2 : lang ≠ "en") (h3 : lang ≠ "kk") :
    (∀ r : Option Int, cdiBand r lang = cdiBand r "ru") ∧
    (∀ (slug : String) (per : List (String × Int)) (raw maxS : Int),
      interpPsych slug lang per raw maxS = .error .keyError) := by
  constructor
  · intro r
    cases r with
    | none => rfl
    | some v => simp [cdiBand, h1, h2, h3]
  · intro slug per raw maxS
    have hT : psychT lang = .error .keyError := by simp [psychT, h1, h2, h3]
    unfold interpPsych
    rw [hT]
    rfl

/-- C5 witness: the fallback theorem applied at the unsupported code "de". -/
theorem claim5_language_fallback_witness :
    cdiBand (some 15) "de" = cdiBand (some 15) "ru" ∧
    interpPsych "holland" "de" [("R", 3)] 0 0 = .error .keyError :=
  ⟨(claim5_language_fallback "de" (by decide) (by decide) (by decide)).1 (some 15),
   (claim5_language_fallback "de" (by decide) (by decide) (by decide)).2 "holland" [("R", 3)] 0 0⟩

/-- C6: CDI risk banding maps a null raw score to null, and otherwise
yields level "high" iff raw ≥ 19, "moderate" iff 13 ≤ raw ≤ 18, "low" iff
raw < 13, with the fixed colors danger/warning/secondary respectively;
concretely band(12) = low, band(13) = moderate, band(18) = moderate,
band(19) = high. -/
theorem claim6_cdi_banding :
    (∀ lang, cdiBand none lang = none) ∧
    (∀ (r : Int) (lang : String),
      ((cdiBand (some r) lang).map CdiRisk.level = some "high" ↔ 19 ≤ r) ∧
      ((cdiBand (some r) lang).map CdiRisk.level = some "moderate" ↔ 13 ≤ r ∧ r ≤ 18) ∧
      ((cdiBand (some r) lang).map CdiRisk.level = some "low" ↔ r < 13) ∧
      ((cdiBand (some r) lang).map CdiRisk.color = some "danger" ↔ 19 ≤ r) ∧
      ((cdiBand (some r) lang).map CdiRisk.color = some "warning" ↔ 13 ≤ r ∧ r ≤ 18) ∧
      ((cdiBand (some r) lang).map CdiRisk.color = some "secondary" ↔ r < 13)) ∧
    (cdiBand (some 12) "ru").map CdiRisk.level = some "low" ∧
    (cdiBand (some 13) "ru").map CdiRisk.level = some "moderate" ∧
    (cdiBand (some 18) "ru").map CdiRisk.level = some "moderate" ∧
    (cdiBand (some 19) "ru").map CdiRisk.level = some "high" := by
  refine ⟨fun lang => rfl, fun r lang => ?_, rfl, rfl, rfl, rfl⟩
  unfold cdiBand
  simp only []
  split_ifs <;> refine ⟨?_, ?_, ?_, ?_, ?_, ?_⟩ <;> simp <;> omega

/-- C7: the MBTI code takes, for each pair in the order (E,I)(S,N)(T,F)(J,P),
the first-listed letter iff its count is ≥ the second letter's count (ties
to the first letter), concatenated in pair order; the analysis.py, student.py
and tests-blueprint implementations all agree, and the example per-scale map
{E:3, I:3, S:5, N:1, T:0, F:0, J:2, P:2} yields "ESTJ". -/
theorem claim7_mbti_code :
    (∀ per, (mbtiCodeCommentaryA per).1 = mbtiTypeCode per) ∧
    (∀ per, (mbtiCodeExplainS per).1 = mbtiTypeCode per) ∧
    (∀ per, mbtiTypeCode per =
      (if lookupD per "E" ≥ lookupD per "I" then "E" else "I") ++
      (if lookupD per "S" ≥ lookupD per "N" then "S" else "N") ++
      (if lookupD per "T" ≥ lookupD per "F" then "T" else "F") ++
      (if lookupD per "J" ≥ lookupD per "P" then "J" else "P")) ∧
    mbtiTypeCode [("E", 3), ("I", 3), ("S", 5), ("N", 1), ("T", 0), ("F", 0), ("J", 2), ("P", 2)]
      = "ESTJ" ∧
    (mbtiCodeCommentaryA
      [("E", 3), ("I", 3), ("S", 5), ("N", 1), ("T", 0), ("F", 0), ("J", 2), ("P", 2)]).1
      = "ESTJ" ∧
    (interpretStudent "mbti"
      [("E", 3), ("I", 3), ("S", 5), ("N", 1), ("T", 0), ("F", 0), ("J", 2), ("P", 2)] 0 0).code
      = some "ESTJ" := by
  refine ⟨fun per => ?_, fun per => ?_, fun per => ?_, rfl, rfl, rfl⟩ <;>
    simp only [mbtiCodeCommentaryA, mbtiCodeExplainS, mbtiTypeCode, mbtiPick, mbtiPairs,
      List.foldl] <;>
    split_ifs <;> rfl

/-- C9: the digest line built for an instrument flagged confidential is
independent of the learner's answers and equals a fixed function of the
instrument title alone — it carries no per-scale values, raw score or
interpretation code. -/
theorem claim9_confidential_digest (t : TestSnap) (a1 a2 : List (Nat × Nat))
    (h : t.confidentialStudent = true) :
    summaryLine t a1 = summaryLine t a2 ∧
    summaryLine t a1 = .ok ("• " ++ t.title ++ ": конфиденциальная сводка без подробностей.") := by
  constructor
  · simp [summaryLine, h]
  · simp [summaryLine, h]
    rfl

/-- C9 witness: the digest theorem applied to a concrete confidential
instrument and two different answer sets. -/
theorem claim9_confidential_digest_witness :
    summaryLine ⟨"CDI", "cdi", true, [⟨1, [⟨10, some "5"⟩]⟩]⟩ [(1, 10)] =
      summaryLine ⟨"CDI", "cdi", true, [⟨1, [⟨10, some "5"⟩]⟩]⟩ [] ∧
    summaryLine ⟨"CDI", "cdi", true, [⟨1, [⟨10, some "5"⟩]⟩]⟩ [(1, 10)] =
      .ok ("• " ++ "CDI" ++ ": конфиденциальная сводка без подробностей.") :=
  claim9_confidential_digest ⟨"CDI", "cdi", true, [⟨1, [⟨10, some "5"⟩]⟩]⟩ [(1, 10)] [] rfl

/-- Looking a code up after an upsert adds the upserted amount exactly on
the upserted key. -/
theorem lookupD_upsert (l : List (String × Int)) (k code : String) (v : Int) :
    lookupD (upsert l k v) code = lookupD l code + (if k = code then v else 0) := by
  induction l with
  | nil =>
    by_cases h : k = code <;> simp [upsert, lookupD, h]
  | cons kv rest ih =>
    by_cases h1 : kv.1 = k
    · simp only [upsert, h1, beq_self_eq_true, if_true]
      by_cases h2 : k = code <;> simp [lookupD, h1, h2]
    · have hb : (kv.1 == k) = false := beq_eq_false_iff_ne.mpr h1
      simp only [upsert, hb, Bool.false_eq_true, if_false]
      by_cases h2 : kv.1 = code
      · have hk : ¬ k = code := fun hc => h1 (h2.trans hc.symm)
        simp [lookupD, h2, hk]
      · have hb2 : (kv.1 == code) = false := beq_eq_false_iff_ne.mpr h2
        simp [lookupD, hb2, ih]

/-- Folding the composite-token step accumulates, per code, the sum of the
individual token contributions. -/
theorem foldl_tokenStep_lookup (ts : List String) (acc : List (String × Int)) (code : String) :
    lookupD (ts.foldl tokenStep acc) code =
      lookupD acc code + ((ts.map (tokenContrib code)).sum) := by
  induction ts generalizing acc with
  | nil => simp
  | cons t rest ih =>
    simp only [List.foldl_cons, List.map_cons, List.sum_cons]
    rw [ih]
    have hstep : lookupD (tokenStep acc t) code = lookupD acc code + tokenContrib code t := by
      unfold tokenStep tokenContrib
      by_cases he : t.data.isEmpty
      · have hm : matchToken t = none := by
          have : t.data = [] := List.isEmpty_iff.mp he
          unfold matchToken
          simp [this]
        simp [he, hm]
      · simp only [he, Bool.false_eq_true, if_false]
        cases hm : matchToken t with
        | none => simp
        | some cn => simp [lookupD_upsert]
    rw [hstep]
    omega

/-- On a string that reaches the composite branch, the student/psych parser
is exactly the fold of the token rule over the ';'/','-split tokens. -/
theorem parseValueRe_composite (s : String)
    (h1 : (pyStrip s).data.isEmpty = false)
    (h2 : mbtiLetters.contains (pyUpper (pyStrip s)) = false)
    (h3 : isSignedIntRe (pyStrip s) = false) :
    parseValueRe (some s) = (tokenizePy (pyStrip s)).foldl tokenStep [] := by
  have h2m : pyUpper (pyStrip s) ∉ mbtiLetters := by simpa using h2
  unfold parseValueRe
  simp [h1, h2m, h3]

/-- C3, counterexample: the claim says a token without '=' such as "COMM 3"
still contributes, but the services/analysis.py parser it also cites skips
every token that does not contain '=': there "COMM 3" contributes nothing. -/
theorem claim3_counterexample :
    parseValueAnalysis (some "COMM 3") = .ok [] ∧
    parseValueRe (some "COMM 3") = [("COMM", 3)] :=
  ⟨rfl, rfl⟩

/-- C3 (amended): on strings reaching the composite branch the student/psych
parser splits on ';' and ',' and, for every code, accumulates the sum of the
contributions of the tokens matching letters-optional'='-signed-integer
(tokens without '=' such as "COMM 3" included; non-matching tokens are
skipped); the services/analysis parser only processes tokens containing '=',
so "COMM 3" contributes nothing there; both parsers produce the two example
results {COMM:3, ORG:-1} and {COMM:3}. -/
theorem claim3_composite_parsing :
    parseValueRe (some "COMM=3;ORG=-1") = [("COMM", 3), ("ORG", -1)] ∧
    parseValueRe (some "comm=2,comm=1") = [("COMM", 3)] ∧
    parseValueRe (some "COMM 3") = [("COMM", 3)] ∧
    parseValueAnalysis (some "COMM=3;ORG=-1") = .ok [("COMM", 3), ("ORG", -1)] ∧
    parseValueAnalysis (some "comm=2,comm=1") = .ok [("COMM", 3)] ∧
    parseValueAnalysis (some "COMM 3") = .ok [] ∧
    (∀ (s code : String),
      (pyStrip s).data.isEmpty = false →
      mbtiLetters.contains (pyUpper (pyStrip s)) = false →
      isSignedIntRe (pyStrip s) = false →
      lookupD (parseValueRe (some s)) code =
        ((tokenizePy (pyStrip s)).map (tokenContrib code)).sum) := by
  refine ⟨rfl, rfl, rfl, rfl, rfl, rfl, fun s code h1 h2 h3 => ?_⟩
  rw [parseValueRe_composite s h1 h2 h3, foldl_tokenStep_lookup]
  simp [lookupD]

/-- C3 witness: the amended theorem applied to the concrete composite value
"COMM=3;ORG=-1" and the code "COMM". -/
theorem claim3_composite_parsing_witness :
    lookupD (parseValueRe (some "COMM=3;ORG=-1")) "COMM" =
      ((tokenizePy (pyStrip "COMM=3;ORG=-1")).map (tokenContrib "COMM")).sum :=
  claim3_composite_parsing.2.2.2.2.2.2 "COMM=3;ORG=-1" "COMM" rfl rfl rfl

instance rankDescTotal : IsTotal (String × Int) (fun a b => a.2 ≥ b.2) :=
  ⟨fun a b => le_total b.2 a.2⟩

instance rankDescTrans : IsTrans (String × Int) (fun a b => a.2 ≥ b.2) :=
  ⟨fun _ _ _ h1 h2 => le_trans h2 h1⟩

/-- For a one-character code the substring filter of student/analysis agrees
with the set-membership filter of psych. -/
theorem singleChar_filter (c : Char) :
    pyStrIn (String.mk [c]) "RIASEC" = riasecSet.contains (String.mk [c]) := by
  by_cases h : c ∈ ['R', 'I', 'A', 'S', 'E', 'C']
  · fin_cases h <;> rfl
  · simp only [List.mem_cons, List.not_mem_nil, or_false, not_or] at h
    obtain ⟨h1, h2, h3, h4, h5, h6⟩ := h
    have hL : pyStrIn (String.mk [c]) "RIASEC" = false := by
      simp [pyStrIn, listIsInfix, List.isPrefixOf, h1, h2, h3, h4, h5, h6]
    have hR : riasecSet.contains (String.mk [c]) = false := by
      simp [riasecSet, String.ext_iff, h1, h2, h3, h4, h5, h6]
    rw [hL, hR]

/-- C4, counterexample: the claim says every code that is not one of the six
single letters is excluded, but the student (and analysis) implementation
tests k in "RIASEC" — Python substring containment — so the multi-letter
code "RI" passes the filter and even becomes the profile code. -/
theorem claim4_counterexample :
    hollandOrderedSub [("RI", 5)] = [("RI", 5)] ∧
    (interpretStudent "holland" [("RI", 5)] 0 0).code = some "RI" ∧
    humanize "holland" [("RI", 5)] 0 0 =
      "RIASEC (Холланд): топ-3 профиль — RI. Рейтинг: RI:5" :=
  ⟨rfl, rfl, rfl⟩

/-- C4 (amended): the psych implementation filters per_scale to exactly the
six single letters R I A S E C, while the student and analysis
implementations keep any key that is a contiguous substring of "RIASEC"
(multi-letter keys such as "RI" included); the two agree whenever every key
is a single character.  All rank the kept entries stably by descending point
count and return the concatenation of the top 3 keys as the code. -/
theorem claim4_holland :
    (∀ per : List (String × Int), (∀ kv ∈ per, ∃ c, kv.1 = String.mk [c]) →
      hollandOrderedSub per = hollandOrderedSet per) ∧
    (∀ per, List.Sorted (fun a b => a.2 ≥ b.2) (hollandOrderedSub per)) ∧
    (∀ per, List.Sorted (fun a b => a.2 ≥ b.2) (hollandOrderedSet per)) ∧
    (∀ per, (hollandOrderedSub per).Perm (per.filter (fun kv => pyStrIn kv.1 "RIASEC"))) ∧
    (∀ per, (hollandOrderedSet per).Perm (per.filter (fun kv => riasecSet.contains kv.1))) ∧
    (∀ per, (interpretStudent "holland" per 0 0).code =
      some (hollandTop3 (hollandOrderedSub per))) ∧
    (∀ per, (interpPsych "holland" "ru" per 0 0).map Interp.code =
      .ok (some (hollandTop3 (hollandOrderedSet per)))) ∧
    hollandTop3 (hollandOrderedSub [("RI", 5), ("R", 1)]) = "RIR" ∧
    hollandTop3 (hollandOrderedSet [("RI", 5), ("R", 1)]) = "R" := by
  refine ⟨fun per h => ?_,
    fun per => List.sorted_insertionSort _ _,
    fun per => List.sorted_insertionSort _ _,
    fun per => List.perm_insertionSort _ _,
    fun per => List.perm_insertionSort _ _,
    fun per => rfl, fun per => rfl, rfl, rfl⟩
  unfold hollandOrderedSub hollandOrderedSet sortDescStable
  congr 1
  apply List.filter_congr
  intro kv hkv
  obtain ⟨c, hc⟩ := h kv hkv
  rw [hc]
  exact singleChar_filter c

/-- C4 witness: the filter-agreement part applied to a concrete
single-letter per-scale map. -/
theorem claim4_holland_witness :
    hollandOrderedSub [("R", 2), ("A", 7)] = hollandOrderedSet [("R", 2), ("A", 7)] :=
  claim4_holland.1 [("R", 2), ("A", 7)] (by
    intro kv hkv
    fin_cases hkv
    · exact ⟨'R', rfl⟩
    · exact ⟨'A', rfl⟩)

theorem except_bind_ok {α β : Type} (a : α) (f : α → Except PyErr β) :
    (Except.ok a : Except PyErr α) >>= f = f a := rfl

theorem except_bind_error {α β : Type} (e : PyErr) (f : α → Except PyErr β) :
    (Except.error e : Except PyErr α) >>= f = Except.error e := rfl

theorem except_map_bind {α β γ : Type} (x : Except PyErr α) (g : α → Except PyErr β)
    (f : β → γ) : (x >>= g).map f = x >>= fun a => (g a).map f := by
  cases x <;> rfl

/-- The third component of one student/psych aggregation step is the
incoming max_score plus the question's option maximum, whatever the
answer set says. -/
theorem calcReStep_third (ans : List (Nat × Nat)) (st : List (String × Int) × Int × Int)
    (q : TQuestion) : (calcReStep ans st q).2.2 = st.2.2 + maxQTotalRe q.options := by
  unfold calcReStep
  cases ansFor ans q.id with
  | none => rfl
  | some oid =>
    simp only [calcReChoice]
    split
    · rfl
    · rfl

theorem foldl_calcReStep_third (qs : List TQuestion) (ans : List (Nat × Nat)) :
    ∀ st, (qs.foldl (calcReStep ans) st).2.2 =
      qs.foldl (fun m q => m + maxQTotalRe q.options) st.2.2 := by
  induction qs with
  | nil => intro st; rfl
  | cons q t ih =>
    intro st
    simp only [List.foldl_cons]
    rw [ih, calcReStep_third]

theorem calcReStep_empty (st : List (String × Int) × Int × Int) (q : TQuestion) :
    calcReStep [] st q = (st.1, st.2.1, st.2.2 + maxQTotalRe q.options) := rfl

theorem foldl_calcReStep_empty (qs : List TQuestion) :
    ∀ p r m, qs.foldl (calcReStep []) (p, r, m) =
      (p, r, qs.foldl (fun mm q => mm + maxQTotalRe q.options) m) := by
  induction qs with
  | nil => intro p r m; rfl
  | cons q t ih =>
    intro p r m
    simp only [List.foldl_cons]
    rw [calcReStep_empty]
    exact ih p r (m + maxQTotalRe q.options)

/-- If the per-question option maximum computed without error, every option
of the question parses without error. -/
theorem maxQTotalA_ok_parse {opts : List TOption} :
    ∀ {st m : Int}, (List.foldlM (fun m o => do
        let parsed ← parseValueAnalysis o.value
        pure (max m (lookupD parsed "TOTAL"))) st opts) = .ok m →
      ∀ o ∈ opts, ∃ p, parseValueAnalysis o.value = .ok p := by
  induction opts with
  | nil =>
    intro st m _ o ho
    simp at ho
  | cons o t ih =>
    intro st m h o' ho'
    rw [List.foldlM_cons] at h
    cases hp : parseValueAnalysis o.value with
    | error e =>
      rw [hp] at h
      simp only [except_bind_error] at h
      cases h
    | ok p =>
      rcases List.mem_cons.mp ho' with rfl | hmem
      · exact ⟨p, hp⟩
      · rw [hp] at h
        simp only [except_bind_ok] at h
        exact ih h o' hmem

theorem foldlM_calcAStep_third (qs : List TQuestion) (ans : List (Nat × Nat)) :
    ∀ st, (List.foldlM (calcAStep ans) st qs).map (fun r => r.2.2) =
      List.foldlM maxStepA st.2.2 qs := by
  induction qs with
  | nil => intro st; rfl
  | cons q t ih =>
    intro st
    rw [List.foldlM_cons, List.foldlM_cons]
    cases hmq : maxQTotalA q.options with
    | error e =>
      have h1 : calcAStep ans st q = .error e := by
        unfold calcAStep
        rw [hmq]
        rfl
      have h2 : maxStepA st.2.2 q = .error e := by
        unfold maxStepA
        rw [hmq]
        rfl
      rw [h1, h2]
      rfl
    | ok mq =>
      have h2 : maxStepA st.2.2 q = .ok (st.2.2 + mq) := by
        unfold maxStepA
        rw [hmq]
        rfl
      rw [h2, except_bind_ok, except_map_bind]
      simp only [ih]
      unfold calcAStep
      rw [hmq, except_bind_ok]
      cases ansFor ans q.id with
      | none => rfl
      | some oid =>
        simp only [calcAChoice]
        split
        · rfl
        · rename_i o hf
          have ho : o ∈ q.options := List.mem_of_find?_eq_some hf
          obtain ⟨p, hp⟩ := maxQTotalA_ok_parse hmq o ho
          rw [hp]
          rfl

theorem foldlM_calcAStep_empty (qs : List TQuestion) :
    ∀ st : List (String × Int) × Int × Int,
      List.foldlM (calcAStep []) st qs =
        (List.foldlM maxStepA st.2.2 qs).map (fun m => (st.1, st.2.1, m)) := by
  induction qs with
  | nil => intro st; rfl
  | cons q t ih =>
    intro st
    rw [List.foldlM_cons, List.foldlM_cons]
    cases hmq : maxQTotalA q.options with
    | error e =>
      have h1 : calcAStep [] st q = .error e := by
        unfold calcAStep
        rw [hmq]
        rfl
      have h2 : maxStepA st.2.2 q = .error e := by
        unfold maxStepA
        rw [hmq]
        rfl
      rw [h1, h2]
      rfl
    | ok mq =>
      have h1 : calcAStep [] st q = .ok (st.1, st.2.1, st.2.2 + mq) := by
        unfold calcAStep
        rw [hmq]
        rfl
      have h2 : maxStepA st.2.2 q = .ok (st.2.2 + mq) := by
        unfold maxStepA
        rw [hmq]
        rfl
      rw [h1, h2, except_bind_ok, except_bind_ok]
      exact ih (st.1, st.2.1, st.2.2 + mq)

/-- C8, counterexample: the claim promises that the empty answer set always
aggregates to raw == 0 and per_scale == {}, but the services/analysis
variant propagates its parser's ValueError (C1), so an instrument holding
the option value "--5" makes even the no-answer aggregation raise. -/
theorem claim8_counterexample :
    calcAnalysis [⟨1, [⟨10, some "--5"⟩]⟩] [] = .error .valueError ∧
    calcRe [⟨1, [⟨10, some "--5"⟩]⟩] [] = ([], 0, 0) :=
  ⟨rfl, rfl⟩

/-- C8 (amended): max_score is a function of the option structure alone —
for the student/psych aggregation the third component always equals the
answer-free per-question sum, and the empty answer set yields raw == 0 and
per_scale == {}; the services/analysis aggregation behaves identically
except that its parser's ValueError propagates: its max_score-or-error
outcome is the same for every answer set, and with no answers it returns
exactly per_scale == {}, raw == 0 whenever no option value raises. -/
theorem claim8_aggregation :
    (∀ qs ans, (calcRe qs ans).2.2 = maxScoreOf qs) ∧
    (∀ qs, calcRe qs [] = ([], 0, maxScoreOf qs)) ∧
    (∀ qs ans, (calcAnalysis qs ans).map (fun r => r.2.2) = maxScoreOfA qs) ∧
    (∀ qs, calcAnalysis qs [] = (maxScoreOfA qs).map (fun m => ([], 0, m))) := by
  refine ⟨fun qs ans => ?_, fun qs => ?_, fun qs ans => ?_, fun qs => ?_⟩
  · unfold calcRe maxScoreOf
    exact foldl_calcReStep_third qs ans ([], 0, 0)
  · unfold calcRe maxScoreOf
    exact foldl_calcReStep_empty qs [] 0 0
  · unfold calcAnalysis maxScoreOfA
    exact foldlM_calcAStep_third qs ans ([], 0, 0)
  · unfold calcAnalysis maxScoreOfA
    exact foldlM_calcAStep_empty qs ([], 0, 0)

theorem ansFor_filter_self (ans : List (Nat × Nat)) (qid : Nat) :
    ansFor (ans.filter (fun p => !(p.1 == qid))) qid = none := by
  induction ans with
  | nil => rfl
  | cons p rest ih =>
    by_cases h : p.1 = qid
    · have hb : (p.1 == qid) = true := beq_iff_eq.mpr h
      simp only [List.filter_cons, hb, Bool.not_true, Bool.false_eq_true, if_false]
      exact ih
    · have hb : (p.1 == qid) = false := beq_eq_false_iff_ne.mpr h
      simp only [List.filter_cons, hb, Bool.not_false, if_true]
      unfold ansFor
      rw [hb]
      exact ih

theorem ansFor_filter_ne (ans : List (Nat × Nat)) (qid x : Nat) (h : x ≠ qid) :
    ansFor (ans.filter (fun p => !(p.1 == qid))) x = ansFor ans x := by
  induction ans with
  | nil => rfl
  | cons p rest ih =>
    by_cases hp : p.1 = qid
    · have hb : (p.1 == qid) = true := beq_iff_eq.mpr hp
      have hx : (p.1 == x) = false := by
        apply beq_eq_false_iff_ne.mpr
        rw [hp]
        exact fun hc => h hc.symm
      simp only [List.filter_cons, hb, Bool.not_true, Bool.false_eq_true, if_false, ih]
      conv_rhs => unfold ansFor
      simp only [hx, Bool.false_eq_true, if_false]
    · have hb : (p.1 == qid) = false := beq_eq_false_iff_ne.mpr hp
      simp only [List.filter_cons, hb, Bool.not_false, if_true]
      unfold ansFor
      rw [ih]

/-- One student/psych aggregation step is unchanged by dropping an answer
whose option id matches no option of its question. -/
theorem calcReStep_eq_filter (ans : List (Nat × Nat)) (qid oid : Nat)
    (st : List (String × Int) × Int × Int) (q : TQuestion)
    (hfound : ansFor ans qid = some oid)
    (hbadq : q.id = qid → ∀ o ∈ q.options, o.id ≠ oid) :
    calcReStep ans st q = calcReStep (ans.filter (fun p => !(p.1 == qid))) st q := by
  by_cases hq : q.id = qid
  · have hfind : q.options.find? (fun o => o.id == oid) = none := by
      apply List.find?_eq_none.mpr
      intro o ho
      simp only [beq_iff_eq]
      exact hbadq hq o ho
    unfold calcReStep
    rw [hq, hfound, ansFor_filter_self]
    simp only [calcReChoice, hfind]
  · unfold calcReStep
    rw [ansFor_filter_ne ans qid q.id hq]

/-- The analysis-variant step likewise ignores an answer whose option id
matches no option of its question. -/
theorem calcAStep_eq_filter (ans : List (Nat × Nat)) (qid oid : Nat)
    (st : List (String × Int) × Int × Int) (q : TQuestion)
    (hfound : ansFor ans qid = some oid)
    (hbadq : q.id = qid → ∀ o ∈ q.options, o.id ≠ oid) :
    calcAStep ans st q = calcAStep (ans.filter (fun p => !(p.1 == qid))) st q := by
  by_cases hq : q.id = qid
  · have hfind : q.options.find? (fun o => o.id == oid) = none := by
      apply List.find?_eq_none.mpr
      intro o ho
      simp only [beq_iff_eq]
      exact hbadq hq o ho
    unfold calcAStep
    rw [hq, hfound, ansFor_filter_self]
    simp only [calcAChoice, hfind]
  · unfold calcAStep
    rw [ansFor_filter_ne ans qid q.id hq]

theorem foldlM_ext_except {α β : Type} (f g : β → α → Except PyErr β) (l : List α)
    (h : ∀ a ∈ l, ∀ b, f b a = g b a) : ∀ b, List.foldlM f b l = List.foldlM g b l := by
  induction l with
  | nil => intro b; rfl
  | cons a t ih =>
    intro b
    rw [List.foldlM_cons, List.foldlM_cons, h a (List.mem_cons_self a t)]
    cases g b a with
    | error e => rfl
    | ok b' =>
      simp only [except_bind_ok]
      exact ih (fun a ha b => h a (List.mem_cons_of_mem _ ha) b) b'

/-- C10: an answer that references an option id not belonging to its
question is silently skipped by every aggregation variant: the result
(per_scale, raw, max_score — and, for the analysis variant, even the
raised-or-not outcome) equals that of the same input with the offending
answer entry removed. -/
theorem claim10_unmatched_option (qs : List TQuestion) (ans : List (Nat × Nat))
    (qid oid : Nat)
    (hfound : ansFor ans qid = some oid)
    (hbad : ∀ q ∈ qs, q.id = qid → ∀ o ∈ q.options, o.id ≠ oid) :
    calcRe qs ans = calcRe qs (ans.filter (fun p => !(p.1 == qid))) ∧
    calcAnalysis qs ans = calcAnalysis qs (ans.filter (fun p => !(p.1 == qid))) := by
  constructor
  · unfold calcRe
    apply List.foldl_ext
    intro st q hqmem
    exact calcReStep_eq_filter ans qid oid st q hfound (hbad q hqmem)
  · unfold calcAnalysis
    exact foldlM_ext_except _ _ qs
      (fun q hqmem st => calcAStep_eq_filter ans qid oid st q hfound (hbad q hqmem)) _

/-- C10 witness: a one-question instrument where the recorded answer points
at the nonexistent option 99. -/
theorem claim10_unmatched_option_witness :
    calcRe [⟨1, [⟨10, some "COMM=2"⟩]⟩] [(1, 99)] =
      calcRe [⟨1, [⟨10, some "COMM=2"⟩]⟩] ([(1, 99)].filter (fun p => !(p.1 == 1))) ∧
    calcAnalysis [⟨1, [⟨10, some "COMM=2"⟩]⟩] [(1, 99)] =
      calcAnalysis [⟨1, [⟨10, some "COMM=2"⟩]⟩] ([(1, 99)].filter (fun p => !(p.1 == 1))) :=
  claim10_unmatched_option [⟨1, [⟨10, some "COMM=2"⟩]⟩] [(1, 99)] 1 99 rfl (by decide)

end OiOrda
